import Mathlib

/-
  A shallow embedding of the `cookie` package: a browser-style cookie jar
  (jar.go), its punycode / host canonicalization (puny source file), and the
  textual cookie codec (cookie.go).

  Modelling conventions:
  * Go strings are modelled as Lean `String`s and iterated as `List Char`.
    The Go code indexes bytes; every byte-level operation used here
    (`s[i]`, `strings.HasPrefix`, suffix tests) coincides with the
    character-level reading on valid UTF-8 strings, because UTF-8 is
    self-synchronizing and all boundary characters compared ('.', ':', '/',
    '[', ']') are single-byte.
  * `time.Time` is modelled as `Int`: the zero value is `0` (`IsZero`),
    `After` is `>`, and `now.Add(d * time.Second)` is `now + d`.
  * Go's `int32` arithmetic in the punycode encoder wraps; `wrap32` makes the
    wrap-around explicit so the encoder's `d < 0` overflow guard is faithful.
  * A Go runtime panic (out-of-range index or slice) is modelled by `none` in
    an `Option`-shaped result; a returned `error` by the `Except`/`Option`
    error side.
-/

namespace cookie

/-- Two's-complement wrap-around of Go `int32` arithmetic
(the literals are 2^31 and 2^32). -/
def wrap32 (x : Int) : Int := (x + 2147483648) % 4294967296 - 2147483648

/-- Models Go `strings.ToLower` on the ASCII range (the only range the
claims exercise; Unicode simple case mapping is not modelled). -/
def goToLower (s : String) : String :=
  String.mk (s.data.map fun c =>
    if 'A' ≤ c ∧ c ≤ 'Z' then Char.ofNat (c.toNat + 32) else c)

/-- hasDotSuffix from jar.go: `s` ends in `"." + suffix`. -/
def hasDotSuffix (s suffix : String) : Bool :=
  decide (s.length > suffix.length ∧
    s.data.drop (s.length - suffix.length - 1) = '.' :: suffix.data)

/-- Strip at most one leading dot (the first normalization step of
validateDomain in jar.go). -/
def stripLeadingDot (s : String) : String :=
  if s.data.head? = some '.' then String.mk s.data.tail else s

/-- Index of the first occurrence of a character (strings.IndexByte for the
single-byte characters used by the codec). -/
def indexOfChar : List Char → Char → Option Nat
  | [], _ => none
  | a :: rest, c => if a = c then some 0 else (indexOfChar rest c).map (· + 1)

/-- Index of the last occurrence of a character, `-1` when absent
(strings.LastIndex for a one-character needle). -/
def lastIndexOf : List Char → Char → Int
  | [], _ => -1
  | a :: rest, c =>
    let r := lastIndexOf rest c
    if r ≥ 0 then r + 1 else if a = c then 0 else -1

/-- Split on a single-character separator (strings.Split for the
one-character separators used here); structurally recursive so that proofs
can evaluate it. -/
def splitChar : List Char → Char → List (List Char)
  | [], _ => [[]]
  | c :: rest, sep =>
    let r := splitChar rest sep
    if c = sep then [] :: r
    else
      match r with
      | [] => [[c]]
      | g :: gs => (c :: g) :: gs

/-- Join with a single-character separator (strings.Join). -/
def joinWith : List (List Char) → Char → List Char
  | [], _ => []
  | [g], _ => g
  | g :: gs, sep => g ++ sep :: joinWith gs sep

/-- Lookup in a Go map modelled as an association list. -/
def mapGet {α : Type} (m : List (String × α)) (k : String) : Option α :=
  match m.find? (fun p => p.1 == k) with
  | some p => some p.2
  | none => none

/-- Insert-or-overwrite in a Go map modelled as an association list. -/
def mapPut {α : Type} (m : List (String × α)) (k : String) (v : α) :
    List (String × α) :=
  match m with
  | [] => [(k, v)]
  | p :: rest => if p.1 == k then (k, v) :: rest else p :: mapPut rest k v

/-- Deletion from a Go map modelled as an association list. -/
def mapDel {α : Type} (m : List (String × α)) (k : String) :
    List (String × α) :=
  m.filter (fun p => p.1 != k)

/-- The error values of jar.go and the punycode source file. -/
inductive JarError where
  | invalidScheme
  | noHostname
  | malformedDomain
  | illegalDomain
  | invalidDomain
  | addrError
deriving DecidableEq, Repr

/-- The Cookie struct of cookie.go.  `Expires = 0` is the zero time; a
negative `MaxAge` expresses the original `Max-Age=0`. -/
structure Cookie where
  Name : String := ""
  Value : String := ""
  Domain : String := ""
  Path : String := ""
  Expires : Int := 0
  Secure : Bool := false
  HttpOnly : Bool := false
  MaxAge : Int := 0
  Unparsed : List String := []
deriving DecidableEq, Repr

/-- The jarEntry struct of jar.go. -/
structure jarEntry where
  Root : String := ""
  Key : String := ""
  Created : Int := 0
  Expires : Int := 0
  HostOnly : Bool := false
  Name : String := ""
  Value : String := ""
  Domain : String := ""
  Path : String := ""
  Secure : Bool := false
  HttpOnly : Bool := false
deriving DecidableEq, Repr

/-- The Jar struct of jar.go: a public-suffix capability (an injected
single-method interface, modelled as an optional function) and the
two-level mapping root → key → entry. -/
structure Jar where
  psl : Option (String → String)
  ent : List (String × List (String × jarEntry))

/-! Punycode encoder (RFC 3492 basic encoding), from the puny source file. -/

def base : Int := 36
def damp : Int := 700
def skew : Int := 38
def tmax : Int := 26
def tmin : Int := 1
def initialBias : Int := 72
def initialN : Int := 128

/-- isASCII from the puny source file (all bytes < 0x80, equivalently all
characters < 0x80). -/
def isASCII (s : String) : Bool := s.data.all (fun c => c.toNat < 0x80)

/-- One base-36 output digit: `'a' + d` for 0–25, `'0' - 26 + d` for 26–35. -/
def punyDigit (d : Int) : Char :=
  if d < 26 then Char.ofNat (97 + d.toNat) else Char.ofNat (48 + (d.toNat - 26))

/-- The loop inside adapt (RFC 3492, 6.1).  The loop divides `delta` by
`base - tmin = 35` each pass, so for any `int32` value 32 iterations of fuel
are more than enough; the fuel-exhausted branch is unreachable. -/
def adaptLoop (fuel : Nat) (delta k : Int) : Int × Int :=
  match fuel with
  | 0 => (delta, k)
  | fuel + 1 =>
    if delta > ((base - tmin) * tmax) / 2 then
      adaptLoop fuel (delta / (base - tmin)) (k + base)
    else (delta, k)

/-- adapt from the puny source file: the bias adaptation function. -/
def adapt (delta points : Int) (first : Bool) : Int :=
  let delta := if first then delta / damp else delta / 2
  let delta := delta + delta / points
  let (delta, k) := adaptLoop 32 delta 0
  k + (base - tmin + 1) * delta / (delta + skew)

/-- The generalized-variable-length-integer emission loop of encode: emits
base-36 digits of `q` under thresholds `t = clamp(k - bias, tmin, tmax)`.
`q` is divided by at least `base - tmax = 10` per pass, so 64 iterations of
fuel are more than enough for any `int32`; the fuel-exhausted branch is
unreachable. -/
def punyDigits (fuel : Nat) (q k bias : Int) (buf : List Char) : List Char :=
  match fuel with
  | 0 => buf
  | fuel + 1 =>
    let t := if k - bias < tmin then tmin else if k - bias > tmax then tmax else k - bias
    if q < t then buf ++ [punyDigit q]
    else
      punyDigits fuel ((q - t) / (base - t)) (k + base) bias
        (buf ++ [punyDigit (t + (q - t) % (base - t))])

/-- The mutable locals of encode's outer loop. -/
structure EncState where
  buf : List Char
  bias : Int
  d : Int
  h : Int
  rem : Nat
deriving Repr

/-- The inner `for _, r := range s` loop of encode: bump `d` (checking the
int32 overflow guard) for code points below `n`, and emit the delta for every
code point equal to `n`.  `b` is the count of basic (ASCII) code points. -/
def encodeRunes (n b : Int) (rs : List Char) (st : EncState) :
    Except JarError EncState :=
  match rs with
  | [] => .ok st
  | r :: rest =>
    let rv : Int := r.toNat
    if rv < n then
      let d := wrap32 (st.d + 1)
      if d < 0 then .error .invalidDomain
      else encodeRunes n b rest { st with d := d }
    else if rv > n then encodeRunes n b rest st
    else
      let buf := punyDigits 64 st.d base st.bias st.buf
      let bias := adapt st.d (st.h + 1) (st.h == b)
      encodeRunes n b rest
        { buf := buf, bias := bias, d := 0, h := st.h + 1, rem := st.rem - 1 }

/-- The `m` search of encode's outer loop: the minimum code point of the
input that is at least `n` (`0x7fffffff` when none qualifies). -/
def minRune (runes : List Char) (n : Int) : Int :=
  runes.foldl
    (fun m r => if m > (r.toNat : Int) ∧ (r.toNat : Int) ≥ n then r.toNat else m)
    0x7fffffff

/-- The outer `for rem > 0` loop of encode.  Every pass encodes at least one
remaining non-ASCII code point (the minimum one, which is attained), so
`rem + 1` iterations of fuel always suffice; the fuel-exhausted branch is
unreachable. -/
def encodeLoop : Nat → List Char → Int → Int → EncState →
    Except JarError (List Char)
  | 0, _, _, _, st =>
    if st.rem = 0 then .ok st.buf else .error .invalidDomain
  | fuel + 1, runes, b, n, st =>
    if st.rem = 0 then .ok st.buf
    else
      let m := minRune runes n
      let d := wrap32 (st.d + wrap32 ((m - n) * (st.h + 1)))
      if d < 0 then .error .invalidDomain
      else
        match encodeRunes m b runes { st with d := d } with
        | .error e => .error e
        | .ok st =>
          encodeLoop fuel runes b (wrap32 (m + 1)) { st with d := wrap32 (st.d + 1) }

/-- encode from the puny source file: punycode a non-ASCII domain label,
appending to `buf` (callers pass an empty buffer). -/
def encode (s : String) (buf : List Char) : Except JarError String :=
  let buf := buf ++ "xn--".data
  let ascii := s.data.filter (fun r => r.toNat < 0x80)
  let b : Int := ascii.length
  let rem := (s.data.filter (fun r => ¬ r.toNat < 0x80)).length
  let buf := buf ++ ascii
  let buf := if b > 0 then buf ++ ['-'] else buf
  match encodeLoop (rem + 1) s.data b initialN
      { buf := buf, bias := initialBias, d := 0, h := b, rem := rem } with
  | .error e => .error e
  | .ok buf => .ok (String.mk buf)

/-- The per-label loop of toASCII: ASCII labels pass through, other labels
are punycoded; the first encoding error aborts. -/
def toASCIIlabels : List String → Except JarError (List String)
  | [] => .ok []
  | l :: rest =>
    match (if isASCII l then .ok l else encode l []) with
    | .error e => .error e
    | .ok l' =>
      match toASCIIlabels rest with
      | .error e => .error e
      | .ok rest' => .ok (l' :: rest')

/-- toASCII from the puny source file: convert a domain to its ASCII form. -/
def toASCII (domain : String) : Except JarError String :=
  if isASCII domain then .ok domain
  else
    match toASCIIlabels ((splitChar domain.data '.').map String.mk) with
    | .error e => .error e
    | .ok labels => .ok (String.mk (joinWith (labels.map String.data) '.'))

/-! Host canonicalization and the jar (jar.go). -/

/-- Numeric value of a digit string (no overflow modelling needed at the
sizes involved). -/
def digitsVal (cs : List Char) : Int :=
  cs.foldl (fun n c => n * 10 + ((c.toNat : Int) - 48)) 0

/-- Models the IPv4 half of Go `net.ParseIP`: four dot-separated decimal
fields of one to three digits, each at most 255. -/
def isIPv4 (s : String) : Bool :=
  let parts := splitChar s.data '.'
  parts.length == 4 && parts.all (fun p =>
    decide (p.length > 0) && decide (p.length ≤ 3) &&
    p.all Char.isDigit && decide (digitsVal p ≤ 255))

/-- Coarse model of the IPv6 half of Go `net.ParseIP`: a colon is present
and every character is a hex digit, colon or dot.  (The hosts the claims
quantify over concretely are plain domain names, for which any faithful
model of `ParseIP` returns nil; error-path claims are insensitive to the
exact error chosen.) -/
def isIPv6 (s : String) : Bool :=
  s.data.contains ':' && s.data.all (fun c =>
    c.isDigit || ('a' ≤ c && c ≤ 'f') || ('A' ≤ c && c ≤ 'F') || c == ':' || c == '.')

/-- isIP from jar.go: `net.ParseIP(host) != nil`. -/
def isIP (host : String) : Bool := isIPv4 host || isIPv6 host

/-- The `for i, c := range addr` loop of hasPort.  At each colon Go reads
`addr[i-1]`; when the colon is the first character this is `addr[-1]`, an
out-of-range index — modelled by `none` (panic). -/
def hasPortLoop (prev : Option Char) (cs : List Char) (colons : Nat)
    (rbrack : Bool) : Option (Nat × Bool) :=
  match cs with
  | [] => some (colons, rbrack)
  | c :: rest =>
    if c = ':' then
      match prev with
      | none => none
      | some p => hasPortLoop (some c) rest (colons + 1) (p = ']')
    else hasPortLoop (some c) rest colons rbrack

/-- hasPort from jar.go: whether `addr` contains a port number.  `none`
models the out-of-range panic on a leading colon. -/
def hasPort (addr : String) : Option Bool :=
  if addr.length = 0 then some false
  else
    match hasPortLoop none addr.data 0 false with
    | none => none
    | some (colons, rbrack) =>
      match colons with
      | 0 => some false
      | 1 => some true
      | _ => some (addr.data.head? == some '[' && rbrack)

/-- Models Go `net.SplitHostPort`, returning only the host part: the last
colon separates the port; a bracketed host must be `[host]:port`; more than
one colon outside a bracketed form is an error.  (Never reached by any
claim: the one claim touching ports panics earlier, in hasPort.) -/
def splitHostPort (hostport : String) : Except JarError String :=
  let cs := hostport.data
  match lastIndexOf cs ':' with
  | -1 => .error .addrError
  | i =>
    let i := i.toNat
    if cs.head? = some '[' then
      if 2 ≤ i ∧ cs.get? (i - 1) = some ']' then
        .ok (String.mk ((cs.drop 1).take (i - 2)))
      else .error .addrError
    else if (cs.take i).contains ':' then .error .addrError
    else .ok (String.mk (cs.take i))

/-- canonicalHost from jar.go.  `none` models a panic escaping from
hasPort. -/
def canonicalHost (host : String) : Option (Except JarError String) :=
  let host := goToLower host
  match hasPort host with
  | none => none
  | some true =>
    match splitHostPort host with
    | .error e => some (.error e)
    | .ok h => some (toASCII h)
  | some false => some (toASCII host)

/-- validateDomain from jar.go: validate a cookie domain attribute against
the host and the public-suffix capability, returning the stored domain and
the host-only flag. -/
def validateDomain (host domain : String) (psl : Option (String → String)) :
    Except JarError (String × Bool) :=
  if domain = "" then .ok (host, true)
  else if isIP host = true then .error .noHostname
  else
    let dm := stripLeadingDot domain
    if dm = "" ∨ dm.data.head? = some '.' ∨ dm.data.getLast? = some '.' then
      .error .malformedDomain
    else
      let dl := goToLower dm
      match psl with
      | some ps =>
        if ps dl ≠ "" ∧ hasDotSuffix dl (ps dl) = false then
          if host = dl then .ok (host, true) else .error .illegalDomain
        else if host ≠ dl ∧ hasDotSuffix host dl = false then
          .error .illegalDomain
        else .ok (dl, false)
      | none => .ok (dl, false)

/-- domainRoot from jar.go: the storage bucket key for a host. -/
def domainRoot (host : String) (psl : Option (String → String)) : String :=
  if isIP host then host
  else
    match psl with
    | none => ""
    | some ps =>
      let suffix := ps host
      if suffix = host then host
      else
        let i : Nat := host.length - suffix.length
        if 0 < i ∧ host.data.get? (i - 1) = some '.' then
          String.mk (host.data.drop (lastIndexOf (host.data.take (i - 1)) '.' + 1).toNat)
        else ""

/-- newEntry from jar.go: build the jarEntry for a Set-Cookie record, and
decide whether the disposition is delete (`true`) or keep (`false`).
The bookkeeping fields `Root` and `Key` are populated only on the keep
path, exactly as in the source (the delete paths return early). -/
def newEntry (c : Cookie) (host : String) (psl : Option (String → String))
    (now : Int) : Except JarError (jarEntry × Bool) :=
  match validateDomain host c.Domain psl with
  | .error e => .error e
  | .ok (dom, hostOnly) =>
    let path := if c.Path = "" ∨ c.Path.data.head? ≠ some '/' then "/" else c.Path
    let entry : jarEntry :=
      { Created := now, Name := c.Name, Value := c.Value, Secure := c.Secure,
        HttpOnly := c.HttpOnly, Domain := dom, HostOnly := hostOnly, Path := path }
    let finish := fun (e : jarEntry) =>
      { e with Root := domainRoot host psl,
               Key := e.Domain ++ ";" ++ e.Path ++ ";" ++ e.Name }
    if c.MaxAge < 0 then .ok (entry, true)
    else if c.MaxAge > 0 then .ok (finish { entry with Expires := now + c.MaxAge }, false)
    else if c.Expires ≠ 0 then
      if c.Expires > now then .ok (finish { entry with Expires := c.Expires }, false)
      else .ok (entry, true)
    else .ok (finish entry, false)

/-- shouldSend from jar.go: is this entry relevant for a request to
scheme, host, path?  `none` models the out-of-range panic on
`entry.Path[len(entry.Path)-1]` when `entry.Path` is empty (and, defensively,
on `path[len(entry.Path)]`, which is in range whenever the prefix test
passed). -/
def jarEntry.shouldSend (entry : jarEntry) (scheme host path : String) :
    Option Bool :=
  if entry.Secure = true ∧ scheme ≠ "https" then some false
  else if entry.Domain ≠ host ∧
      (entry.HostOnly = true ∨ hasDotSuffix host entry.Domain = false) then
    some false
  else if path ≠ entry.Path then
    if entry.Path.data.isPrefixOf path.data = false then some false
    else
      match entry.Path.data.getLast? with
      | none => none
      | some lastc =>
        if lastc ≠ '/' then
          match path.data.get? entry.Path.data.length with
          | none => none
          | some c => if c ≠ '/' then some false else some true
        else some true
  else some true

/-- Jar.set from jar.go: create or overwrite a cookie entry. -/
def Jar.set (j : Jar) (entry : jarEntry) : Jar :=
  let bucket := (mapGet j.ent entry.Root).getD []
  { j with ent := mapPut j.ent entry.Root (mapPut bucket entry.Key entry) }

/-- Jar.remove from jar.go: remove a cookie entry, deleting the bucket when
it becomes empty. -/
def Jar.remove (j : Jar) (entry : jarEntry) : Jar :=
  match mapGet j.ent entry.Root with
  | none => j
  | some bucket =>
    let bucket := mapDel bucket entry.Key
    if bucket.isEmpty then { j with ent := mapDel j.ent entry.Root }
    else { j with ent := mapPut j.ent entry.Root bucket }

/-- Jar.SetCookie from jar.go.  The result pairs the returned error (if
any) with the jar state at the return point; `none` models a panic escaping
from canonicalHost. -/
def Jar.SetCookie (j : Jar) (scheme host path : String) (c : Cookie)
    (now : Int) : Option (Option JarError × Jar) :=
  if scheme ≠ "http" ∧ scheme ≠ "https" then some (some .invalidScheme, j)
  else
    match canonicalHost host with
    | none => none
    | some (.error e) => some (some e, j)
    | some (.ok host) =>
      match newEntry c host j.psl now with
      | .error e => some (some e, j)
      | .ok (entry, rm) =>
        if rm then some (none, j.remove entry) else some (none, j.set entry)

/-- The `for _, entry := range bucket` loop of Jar.Cookies: evict expired
entries in place and accumulate the relevant ones.  The deletion branch has
no `continue` in the source, so the expired entry still reaches the
shouldSend test below it. -/
def cookiesLoop (scheme host path : String) (now : Int)
    (todo : List (String × jarEntry)) (bucket : List (String × jarEntry))
    (acc : List Cookie) : Option (List Cookie × List (String × jarEntry)) :=
  match todo with
  | [] => some (acc, bucket)
  | (_, entry) :: rest =>
    let bucket :=
      if entry.Expires ≠ 0 ∧ ¬ entry.Expires > now then
        mapDel bucket (entry.Domain ++ ";" ++ entry.Path ++ ";" ++ entry.Name)
      else bucket
    match entry.shouldSend scheme host path with
    | none => none
    | some b =>
      let acc := if b then acc ++ [{ Name := entry.Name, Value := entry.Value }] else acc
      cookiesLoop scheme host path now rest bucket acc

/-- Jar.Cookies from jar.go.  The result pairs the outcome with the jar
state after the call; `none` models a panic (canonicalHost or shouldSend). -/
def Jar.Cookies (j : Jar) (scheme host path : String) (now : Int) :
    Option (Except JarError (List Cookie) × Jar) :=
  if scheme ≠ "http" ∧ scheme ≠ "https" then some (.error .invalidScheme, j)
  else
    match canonicalHost host with
    | none => none
    | some (.error e) => some (.error e, j)
    | some (.ok host) =>
      let root := domainRoot host j.psl
      let bucket := (mapGet j.ent root).getD []
      match cookiesLoop scheme host path now bucket bucket [] with
      | none => none
      | some (cookies, bucket) =>
        let ent := if bucket.isEmpty then mapDel j.ent root
                   else mapPut j.ent root bucket
        some (.ok cookies, { j with ent := ent })

/-! The cookie codec (cookie.go).  The 256-entry character-class table
`chars` is initialized by a loop that sets the `nameChar`, `valueChar` and
`attrChar` bits only for bytes `0x20 ≤ c < 0x7f`; it is translated below as
one predicate per class bit.  Go indexes the table with each byte of the
string; on a multi-byte (non-ASCII) character every UTF-8 byte is at least
0x80 and carries no class bit, so the character-level reading — false for
every code point outside 0x20..0x7e — agrees with the byte loop. -/

/-- The parse errors of cookie.go (`fmt.Errorf` values, one per message). -/
inductive ParseError where
  | missingValue
  | invalidName
  | invalidValue
  | invalidAttr
  | invalidDomainAttr
  | invalidExpires
  | invalidMaxAge
deriving DecidableEq, Repr

/-- The `nameChar` class of the `chars` table: bytes in 0x20..0x7e other
than the separators `()<>@,;:\"/[]?={}` and space/tab. -/
def nameCharOK (c : Char) : Bool :=
  (decide (0x20 ≤ c.toNat) && decide (c.toNat < 0x7f)) &&
  ¬ (c == '(' || c == ')' || c == '<' || c == '>' || c == '@' || c == ',' ||
     c == ';' || c == ':' || c == '\\' || c == '"' || c == '/' || c == '[' ||
     c == ']' || c == '?' || c == '=' || c == '\x7b' || c == '\x7d' ||
     c == ' ' || c == '\t')

/-- The `valueChar` class of the `chars` table: bytes in 0x20..0x7e other
than `"`, `;` and `\` (spaces and commas deliberately allowed). -/
def valueCharOK (c : Char) : Bool :=
  (decide (0x20 ≤ c.toNat) && decide (c.toNat < 0x7f)) &&
  ¬ (c == '"' || c == ';' || c == '\\')

/-- The `attrChar` class of the `chars` table: bytes in 0x20..0x7e other
than `;`. -/
def attrCharOK (c : Char) : Bool :=
  (decide (0x20 ≤ c.toNat) && decide (c.toNat < 0x7f)) && ¬ (c == ';')

/-- isValidName from cookie.go. -/
def isValidName (s : String) : Bool :=
  decide (s.length ≠ 0) && s.data.all nameCharOK

/-- isValidValue from cookie.go. -/
def isValidValue (s : String) : Bool :=
  decide (s.length ≠ 0) && s.data.all valueCharOK

/-- isValidAttr from cookie.go. -/
def isValidAttr (s : String) : Bool :=
  decide (s.length ≠ 0) && s.data.all attrCharOK

/-- The character loop of isDomainName from cookie.go, carrying the
previous character and the `ok` flag and label-length counter `n`. -/
def isDomainNameLoop : List Char → Char → Bool → Nat → Bool
  | [], prev, ok, n => if prev = '-' ∨ n > 63 then false else ok
  | c :: rest, prev, ok, n =>
    if ('a' ≤ c ∧ c ≤ 'z') ∨ ('A' ≤ c ∧ c ≤ 'Z') then
      isDomainNameLoop rest c true (n + 1)
    else if '0' ≤ c ∧ c ≤ '9' then isDomainNameLoop rest c ok (n + 1)
    else if c = '-' then
      if prev = '.' then false else isDomainNameLoop rest c ok (n + 1)
    else if c = '.' then
      if prev = '.' ∨ prev = '-' then false
      else if n > 63 ∨ n = 0 then false
      else isDomainNameLoop rest c ok 0
    else false

/-- isDomainName from cookie.go: like net's, but with leading dots allowed
and underscores rejected. -/
def isDomainName (s : String) : Bool :=
  if s.length = 0 ∨ s.length > 255 then false
  else isDomainNameLoop (stripLeadingDot s).data '.' false 0

/-- isValidDomain from cookie.go: a domain name, or an IP without colons. -/
def isValidDomain (s : String) : Bool :=
  isDomainName s || (isIP s && decide (indexOfChar s.data ':' = none))

/-- trim from cookie.go: strip leading and trailing spaces and tabs. -/
def trim (s : String) : String :=
  let sp := fun (c : Char) => c == ' ' || c == '\t'
  String.mk (((s.data.dropWhile sp).reverse.dropWhile sp).reverse)

/-- parseName from cookie.go (`none` models `ok = false`). -/
def parseName (raw : String) : Option String :=
  if isValidName raw then some raw else none

/-- parseValue from cookie.go: unwrap a fully quoted value, then check the
value class (`none` models `ok = false`, in which case the Go function
returns the empty string). -/
def parseValue (raw : String) : Option String :=
  let raw :=
    if raw.length ≥ 2 ∧ raw.data.head? = some '"' ∧ raw.data.getLast? = some '"'
    then String.mk ((raw.data.drop 1).dropLast) else raw
  if isValidValue raw then some raw else none

/-- Go's `b | 0x20` byte trick used by parseAttr for case-insensitive key
matching (on the characters the claims exercise these are single bytes);
setting bit 5 is written arithmetically so that proofs can evaluate it. -/
def orLower (c : Char) : Char :=
  let n := c.toNat % 256
  Char.ofNat (if n / 32 % 2 = 1 then n else n + 32)

/-- Models Go `strconv.Atoi` at the codec's usage site: an optional sign
followed by decimal digits (int-range overflow is not modelled; Max-Age
values of that size are not exercised by any claim). -/
def atoi (s : String) : Option Int :=
  let (sign, ds) :=
    if s.data.head? = some '-' then ((-1 : Int), s.data.tail)
    else if s.data.head? = some '+' then (1, s.data.tail) else (1, s.data)
  if ds = [] ∨ ¬ ds.all Char.isDigit then none
  else some (sign * digitsVal ds)

/-- The weekday abbreviations accepted by Go's reference layouts. -/
def weekdays : List String := ["Mon", "Tue", "Wed", "Thu", "Fri", "Sat", "Sun"]

/-- The month abbreviations of Go's reference layouts, in order. -/
def months : List String :=
  ["Jan", "Feb", "Mar", "Apr", "May", "Jun",
   "Jul", "Aug", "Sep", "Oct", "Nov", "Dec"]

/-- Two decimal digits. -/
def twoDigits (a b : Char) : Option Int :=
  if a.isDigit ∧ b.isDigit then some (digitsVal [a, b]) else none

/-- Models Go `time.Parse` for one of the codec's two layouts
(`sep` is `' '` for RFC 1123 and `'-'` for the legacy format): the shape,
month name, and field ranges are checked, and the timestamp is encoded as
an order-preserving integer (not a Unix epoch; no claim depends on the
numeric value, only on parse success and comparisons never exercised
here). -/
def parseDateWith (sep : Char) (cs : List Char) : Option Int :=
  match cs with
  | [w1, w2, w3, ',', ' ', d1, d2, s1, m1, m2, m3, s2, y1, y2, y3, y4, ' ',
     h1, h2, ':', mi1, mi2, ':', se1, se2, ' ', z1, z2, z3] =>
    if weekdays.contains (String.mk [w1, w2, w3]) ∧ s1 = sep ∧ s2 = sep ∧
       [y1, y2, y3, y4].all Char.isDigit ∧
       ('A' ≤ z1 ∧ z1 ≤ 'Z') ∧ ('A' ≤ z2 ∧ z2 ≤ 'Z') ∧ ('A' ≤ z3 ∧ z3 ≤ 'Z')
    then
      match months.indexOf? (String.mk [m1, m2, m3]) with
      | none => none
      | some mo =>
        match twoDigits d1 d2, twoDigits h1 h2, twoDigits mi1 mi2,
            twoDigits se1 se2 with
        | some d, some h, some mi, some se =>
          if 1 ≤ d ∧ d ≤ 31 ∧ h ≤ 23 ∧ mi ≤ 59 ∧ se ≤ 59 then
            some (((((digitsVal [y1, y2, y3, y4] * 12 + mo) * 31 + d) * 24 + h)
              * 60 + mi) * 60 + se)
          else none
        | _, _, _, _ => none
    else none
  | _ => none

/-- The Expires parsing of parseAttr: RFC 1123 first, then the legacy
dashed layout. -/
def parseHTTPDate (val : String) : Option Int :=
  match parseDateWith ' ' val.data with
  | some t => some t
  | none => parseDateWith '-' val.data

/-- parseAttr from cookie.go.  `none` models the slice-bounds panic on
`val[1:]` when a Domain attribute's value is empty, and the index panic on
`key[0]` when the key is empty.  Note the source *constructs and discards*
the error values for an invalid attribute, an invalid attribute value and
an empty key (`fmt.Errorf` results not returned), so those conditions fall
through exactly as in the source. -/
def parseAttr (c : Cookie) (raw : String) : Option (Except ParseError Cookie) :=
  let (key, val) :=
    match indexOfChar raw.data '=' with
    | some eq =>
      (String.mk (raw.data.take eq),
       (parseValue (String.mk (raw.data.drop (eq + 1)))).getD "")
    | none => (raw, "")
  match key.data.head? with
  | none => none
  | some k0 =>
    let keyLower := String.mk (key.data.map orLower)
    let unparsed : Option (Except ParseError Cookie) :=
      some (.ok { c with Unparsed := c.Unparsed ++ [raw] })
    if orLower k0 = 'd' then
      if keyLower = "domain" then
        match val.data with
        | [] => none
        | _ :: valTail =>
          if isValidDomain (String.mk valTail) = false then
            some (.error .invalidDomainAttr)
          else some (.ok { c with Domain := val })
      else unparsed
    else if orLower k0 = 'e' then
      if keyLower = "expires" then
        match parseHTTPDate val with
        | none => some (.error .invalidExpires)
        | some t => some (.ok { c with Expires := t })
      else unparsed
    else if orLower k0 = 'h' then
      if keyLower = "httponly" then some (.ok { c with HttpOnly := true })
      else unparsed
    else if orLower k0 = 'm' then
      if keyLower = "max-age" ∧ key.data.get? 3 = some '-' then
        match atoi val with
        | none => some (.error .invalidMaxAge)
        | some n =>
          if n < 0 then some (.error .invalidMaxAge)
          else if n = 0 then some (.ok { c with MaxAge := -1 })
          else some (.ok { c with MaxAge := n })
      else unparsed
    else if orLower k0 = 'p' then
      if keyLower = "path" then some (.ok { c with Path := val })
      else unparsed
    else if orLower k0 = 's' then
      if keyLower = "secure" then some (.ok { c with Secure := true })
      else unparsed
    else unparsed

/-- The attribute loop of Parse, over the trimmed semicolon-separated
parts after the first. -/
def parseAttrList (c : Cookie) : List String → Option (Except ParseError Cookie)
  | [] => some (.ok c)
  | p :: rest =>
    match parseAttr c p with
    | none => none
    | some (.error e) => some (.error e)
    | some (.ok c) => parseAttrList c rest

/-- Parse from cookie.go: parse one Set-Cookie header value.  The source's
index-based loop walks exactly the semicolon-separated parts of `raw`,
trimming each; `none` models a panic escaping from parseAttr. -/
def Parse (raw : String) : Option (Except ParseError Cookie) :=
  match (splitChar raw.data ';').map String.mk with
  | [] => some (.error .missingValue)
  | p :: rest =>
    let part := trim p
    match indexOfChar part.data '=' with
    | none => some (.error .missingValue)
    | some eq =>
      match parseName (String.mk (part.data.take eq)) with
      | none => some (.error .invalidName)
      | some name =>
        match parseValue (String.mk (part.data.drop (eq + 1))) with
        | none => some (.error .invalidValue)
        | some value =>
          parseAttrList { Name := name, Value := value } (rest.map trim)

/-! Observation helpers and concrete fixtures used by the theorems. -/

/-- Observable part of a SetCookie result: the returned error and the
two-level mapping (the psl capability, a function, is dropped so equalities
stay decidable). -/
def obsSet (r : Option (Option JarError × Jar)) :
    Option (Option JarError × List (String × List (String × jarEntry))) :=
  r.map (fun p => (p.1, p.2.ent))

/-- Observable part of a Cookies result: the returned (Name, Value) pairs
and the two-level mapping afterwards. -/
def obsCookies (r : Option (Except JarError (List Cookie) × Jar)) :
    Option (Except JarError (List (String × String)) ×
      List (String × List (String × jarEntry))) :=
  r.map (fun p =>
    (p.1.map (fun l => l.map (fun ck => (ck.Name, ck.Value))), p.2.ent))

/-- The jar resulting from a successful SetCookie (fixtures only chain it
after calls shown to succeed). -/
def jarAfter (psl : Option (String → String)) (r : Option (Option JarError × Jar)) : Jar :=
  match r with
  | some (_, j) => j
  | none => { psl := psl, ent := [] }

/-- An empty jar with no public-suffix capability. -/
def emptyJarNone : Jar := { psl := none, ent := [] }

/-- A deterministic public-suffix capability knowing exactly the suffix
`com` (reports `com` for `com` and everything below it). -/
def pslCom : String → String :=
  fun d => if d = "com" ∨ hasDotSuffix d "com" = true then "com" else ""

/-- An empty jar configured with the `com` public-suffix capability. -/
def emptyJarCom : Jar := { psl := some pslCom, ent := [] }

/-- C1 fixture: a cookie with an absolute expiry of 5. -/
def cExpiring : Cookie := { Name := "a", Value := "b", Expires := 5 }

/-- C2 fixture: a session cookie (no Max-Age, no Expires). -/
def cSession : Cookie := { Name := "a", Value := "b" }

/-- C2 fixture: the same cookie sent with the delete sentinel MaxAge = -1. -/
def cDelete : Cookie := { Name := "a", Value := "b", MaxAge := -1 }

/-- C3 fixture: a cookie claiming an unrelated domain. -/
def cForeign : Cookie := { Name := "n", Value := "v", Domain := "b.org" }

/-- C6 fixture: a cookie with domain attribute `.example.com`. -/
def cSid : Cookie := { Name := "sid", Value := "42", Domain := ".example.com" }

/-- The entry stored by the C1 fixture SetCookie (host example.com, now 1). -/
def eExpiring : jarEntry :=
  { Root := "", Key := "example.com;/;a", Created := 1, Expires := 5,
    HostOnly := true, Name := "a", Value := "b", Domain := "example.com",
    Path := "/" }

/-- The entry stored by the C2 fixture SetCookie (host example.com, now 1). -/
def eSession : jarEntry :=
  { Root := "", Key := "example.com;/;a", Created := 1, Expires := 0,
    HostOnly := true, Name := "a", Value := "b", Domain := "example.com",
    Path := "/" }

/-- The entry stored by the C3 counterexample SetCookie. -/
def eForeign : jarEntry :=
  { Root := "", Key := "b.org;/;n", Created := 1, Expires := 0,
    HostOnly := false, Name := "n", Value := "v", Domain := "b.org",
    Path := "/" }

/-- The entry stored by the C6 fixture SetCookie. -/
def eSid : jarEntry :=
  { Root := "example.com", Key := "example.com;/;sid", Created := 1,
    Expires := 0, HostOnly := false, Name := "sid", Value := "42",
    Domain := "example.com", Path := "/" }

/-- C1: the jar holding only the expiring entry. -/
def jarC1 : Jar :=
  jarAfter none (emptyJarNone.SetCookie "http" "example.com" "/" cExpiring 1)

/-- C2: the jar holding only the session entry. -/
def jarC2 : Jar :=
  jarAfter none (emptyJarNone.SetCookie "http" "example.com" "/" cSession 1)

/-- C6: the jar holding only the `sid` entry for root example.com. -/
def jarC6 : Jar :=
  jarAfter (some pslCom) (emptyJarCom.SetCookie "https" "www.example.com" "/" cSid 1)

/-- C7 fixture: a host-only entry scoped to path /foo. -/
def entryFoo : jarEntry := { Domain := "h.com", HostOnly := true, Path := "/foo" }

/-- C7 counterexample fixture: an entry whose Path is the empty string. -/
def entryEmptyPath : jarEntry := { Domain := "h", HostOnly := true, Path := "" }

/-! Helper lemmas shared by the claim theorems. -/

/-- Strings with equal character data are equal. -/
theorem string_eq_of_data_eq {a b : String} (h : a.data = b.data) : a = b := by
  cases a; cases b; exact congrArg String.mk h

/-- A strict prefix is strictly shorter. -/
theorem prefix_ne_length_lt {a b : List Char} (hpre : a.isPrefixOf b = true)
    (hne : a ≠ b) : a.length < b.length := by
  have h := List.isPrefixOf_iff_prefix.mp hpre
  rcases Nat.lt_or_ge a.length b.length with h1 | h1
  · exact h1
  · exact absurd (h.eq_of_length_le h1) hne

/-- A finished pass of the punycode outer loop: with no code points left to
encode it returns the buffer. -/
theorem encodeLoop_done (fuel : Nat) (runes : List Char) (b n : Int)
    (st : EncState) (hrem : st.rem = 0) :
    encodeLoop fuel runes b n st = .ok st.buf := by
  cases fuel with
  | zero => unfold encodeLoop; rw [if_pos hrem]
  | succ fuel => unfold encodeLoop; rw [if_pos hrem]

/-- One pass of the punycode outer loop, stated against precomputed values
of the minimum code point, the delta accumulator and the inner-loop result,
so that concrete evaluations can proceed one pass at a time. -/
theorem encodeLoop_step (fuel : Nat) (runes : List Char) (b n : Int)
    (st : EncState) (m d n2 d2 : Int) (st2 : EncState)
    (hrem : st.rem ≠ 0)
    (hm : minRune runes n = m)
    (hd : wrap32 (st.d + wrap32 ((m - n) * (st.h + 1))) = d)
    (hdn : ¬ d < 0)
    (hr : encodeRunes m b runes { st with d := d } = .ok st2)
    (hn2 : wrap32 (m + 1) = n2)
    (hd2 : wrap32 (st2.d + 1) = d2) :
    encodeLoop (fuel + 1) runes b n st
      = encodeLoop fuel runes b n2 { st2 with d := d2 } := by
  conv_lhs => rw [encodeLoop]
  rw [if_neg hrem]
  simp only [hm, hd]
  rw [if_neg hdn, hr, hn2]
  dsimp only
  rw [hd2]

/-- validateDomain only returns `HostOnly = false` (with a capability
configured) when the host equals the stored domain or lies strictly below
it. -/
theorem validateDomain_relation (host domain : String) (ps : String → String)
    (d : String)
    (hv : validateDomain host domain (some ps) = .ok (d, false)) :
    host = d ∨ hasDotSuffix host d = true := by
  unfold validateDomain at hv
  dsimp only at hv
  split at hv
  · simp at hv
  · split at hv
    · simp at hv
    · split at hv
      · simp at hv
      · split at hv
        · split at hv
          · simp at hv
          · simp at hv
        · split at hv
          · simp at hv
          next hcond =>
            injection hv with h'
            injection h' with h1 h2
            subst h1
            push_neg at hcond
            by_cases he : host = goToLower (stripLeadingDot domain)
            · exact Or.inl he
            · cases hB : hasDotSuffix host (goToLower (stripLeadingDot domain))
              · exact absurd hB (hcond he)
              · exact Or.inr rfl

/-! Claim theorems. -/

/-- C1: the claim says an entry whose Expires is non-zero and not after
`now` is removed from the bucket and *skipped*, never appearing in the
returned sequence of the same Cookies call.  Evaluating the code at the
failing input: the jar holds one entry expiring at 5; Cookies at now = 9
deletes the entry and removes the bucket, but — the eviction branch having
no skip — still returns the expired cookie `("a", "b")`, contradicting the
claim and the source's own comment ("delete expired cookies and output the
rest of them"). -/
theorem c1_code_eval :
    jarC1.ent = [("", [("example.com;/;a", eExpiring)])]
    ∧ obsCookies (jarC1.Cookies "http" "example.com" "/" 9)
        = some (.ok [("a", "b")], []) :=
  ⟨rfl, rfl⟩

/-- C2: the claim says SetCookie with delete disposition removes any
existing entry with the same Key.  Evaluating the code at the failing
input: the jar holds a session entry with Key `example.com;/;a`; a second
SetCookie for the same cookie with MaxAge = -1 returns no error but leaves
the entry in place, because newEntry's delete path returns before
populating Root and Key, so Jar.remove deletes key `""` from bucket `""`
instead of the real entry. -/
theorem c2_code_eval :
    jarC2.ent = [("", [("example.com;/;a", eSession)])]
    ∧ obsSet (jarC2.SetCookie "http" "example.com" "/" cDelete 2)
        = some (none, [("", [("example.com;/;a", eSession)])]) :=
  ⟨rfl, rfl⟩

/-- C4: the claim says SetCookie and Cookies never panic, in particular not
during port detection for a host beginning with `:`.  Evaluating the code
at the failing input: for host `":80"` the hasPort loop reads `addr[i-1]`
at the colon with `i = 0`, an out-of-range index (modelled by `none`), and
the panic escapes through canonicalHost to both jar operations. -/
theorem c4_code_eval :
    hasPort ":80" = none
    ∧ emptyJarNone.Cookies "http" ":80" "/" 0 = none
    ∧ emptyJarNone.SetCookie "http" ":80" "/" cSession 0 = none :=
  ⟨rfl, rfl, rfl⟩

/-- C10: the claim says Parse always returns a Cookie or an error and never
panics, in particular on `"a=b; Domain="`.  Evaluating the code at the
failing input: for that input parseAttr's Domain branch evaluates `val[1:]`
with `val = ""` — the parseValue failure having been computed and discarded
— which is a slice-bounds panic (modelled by `none`).  A well-formed input
parses normally. -/
theorem c10_code_eval :
    Parse "a=b; Domain=" = none
    ∧ Parse "a=b" = some (.ok { Name := "a", Value := "b" }) :=
  ⟨rfl, rfl⟩

/-- C6: with the `com` public-suffix capability, SetCookie on host
`www.example.com` with domain attribute `.example.com` stores an entry with
Domain `example.com`, HostOnly false, in the bucket with root
`example.com`; Cookies for `foo.example.com` returns it and Cookies for
`notexample.com` does not (and neither read disturbs the stored state). -/
theorem c6_thm :
    obsSet (emptyJarCom.SetCookie "https" "www.example.com" "/" cSid 1)
        = some (none, [("example.com", [("example.com;/;sid", eSid)])])
    ∧ eSid.Domain = "example.com" ∧ eSid.HostOnly = false
    ∧ eSid.Root = "example.com"
    ∧ obsCookies (jarC6.Cookies "https" "foo.example.com" "/" 2)
        = some (.ok [("sid", "42")],
            [("example.com", [("example.com;/;sid", eSid)])])
    ∧ obsCookies (jarC6.Cookies "https" "notexample.com" "/" 2)
        = some (.ok [], [("example.com", [("example.com;/;sid", eSid)])]) :=
  ⟨rfl, rfl, rfl, rfl, rfl, rfl⟩

/-- C3, counterexample: the claim quantifies over jars "with or without a
public-suffix capability configured", but with no capability SetCookie
performs no host/domain relation check at all: on host `a.com` a cookie
claiming domain `b.org` is stored with HostOnly = false although `a.com`
neither equals `b.org` nor ends in `.b.org`. -/
theorem c3_counterexample :
    obsSet (emptyJarNone.SetCookie "http" "a.com" "/" cForeign 1)
        = some (none, [("", [("b.org;/;n", eForeign)])])
    ∧ eForeign.HostOnly = false
    ∧ ¬ ("a.com" = eForeign.Domain ∨ hasDotSuffix "a.com" eForeign.Domain = true) := by
  refine ⟨rfl, rfl, ?_⟩
  decide

/-- C7, counterexample: the claim quantifies over every entry, but on an
entry whose Path is the empty string and a request path from which the
claim demands `false` (the empty path is a literal prefix of `"x"`, it does
not end in `/`, and the character after the prefix is not `/`), shouldSend
evaluates `entry.Path[len(entry.Path)-1]` — an out-of-range index (modelled
by `none`) — instead of returning false. -/
theorem c7_counterexample :
    entryEmptyPath.shouldSend "http" "h" "x" = none
    ∧ entryEmptyPath.shouldSend "http" "h" "x" ≠ some false
    ∧ entryEmptyPath.Secure = false
    ∧ ("x" : String) ≠ entryEmptyPath.Path
    ∧ entryEmptyPath.Path.data.isPrefixOf "x".data = true
    ∧ entryEmptyPath.Path.data.getLast? ≠ some '/'
    ∧ "x".data.get? entryEmptyPath.Path.data.length ≠ some '/' := by
  refine ⟨rfl, by decide, rfl, by decide, rfl, by decide, by decide⟩

/-- C3, amended: every entry constructed by SetCookie (through newEntry,
always on an already canonicalized host) **with a public-suffix capability
configured** satisfies, when HostOnly is false, that the creating host
equals the entry's Domain or ends in `"." + Domain`; without a capability
the check is skipped (see the counterexample). -/
theorem c3_amended_thm (c : Cookie) (host : String) (ps : String → String)
    (now : Int) (e : jarEntry) (rm : Bool)
    (h : newEntry c host (some ps) now = .ok (e, rm))
    (hho : e.HostOnly = false) :
    host = e.Domain ∨ hasDotSuffix host e.Domain = true := by
  unfold newEntry at h
  cases hv : validateDomain host c.Domain (some ps) with
  | error err => rw [hv] at h; simp at h
  | ok p =>
    obtain ⟨dom, hostOnly⟩ := p
    rw [hv] at h
    dsimp only at h
    have hkey : e.Domain = dom ∧ e.HostOnly = hostOnly := by
      split at h
      · injection h with h'
        injection h' with h1 h2
        subst h1
        exact ⟨rfl, rfl⟩
      · split at h
        · injection h with h'
          injection h' with h1 h2
          subst h1
          exact ⟨rfl, rfl⟩
        · split at h
          · split at h
            · injection h with h'
              injection h' with h1 h2
              subst h1
              exact ⟨rfl, rfl⟩
            · injection h with h'
              injection h' with h1 h2
              subst h1
              exact ⟨rfl, rfl⟩
          · injection h with h'
            injection h' with h1 h2
            subst h1
            exact ⟨rfl, rfl⟩
    rw [hkey.1]
    rw [hkey.2] at hho
    exact validateDomain_relation host c.Domain ps dom (hho ▸ hv)

/-- C3, witness: the amended theorem applied to the C6 fixture — host
`www.example.com`, domain attribute `.example.com`, the `com` capability —
whose stored entry has HostOnly = false. -/
theorem c3_witness :
    "www.example.com" = eSid.Domain
    ∨ hasDotSuffix "www.example.com" eSid.Domain = true :=
  c3_amended_thm cSid "www.example.com" pslCom 1 eSid false rfl rfl

/-- C5: with a capability configured, for a non-empty, well-formed domain
attribute on a non-IP host, when the capability reports a non-empty suffix
of which the normalized (dot-stripped, lowercased) domain is not a strict
dot-suffix extension, validation yields a host-only cookie if the host
equals the normalized domain exactly, and fails with IllegalDomain
otherwise. -/
theorem c5_thm (host domain : String) (ps : String → String)
    (h1 : stripLeadingDot domain ≠ "")
    (h2 : (stripLeadingDot domain).data.head? ≠ some '.')
    (h3 : (stripLeadingDot domain).data.getLast? ≠ some '.')
    (h4 : ps (goToLower (stripLeadingDot domain)) ≠ "")
    (h5 : hasDotSuffix (goToLower (stripLeadingDot domain))
        (ps (goToLower (stripLeadingDot domain))) = false)
    (h6 : isIP host = false) :
    validateDomain host domain (some ps) =
      if host = goToLower (stripLeadingDot domain) then .ok (host, true)
      else .error .illegalDomain := by
  have hd : domain ≠ "" := by
    intro hh
    subst hh
    exact h1 rfl
  unfold validateDomain
  rw [if_neg hd, if_neg (by simp [h6])]
  dsimp only
  rw [if_neg (by simp [h1, h2, h3]), if_pos ⟨h4, h5⟩]

/-- C5, witness: the claim's own instance — domain attribute `com` on host
`example.com` where the capability reports `PublicSuffix("com") = "com"` —
fails with IllegalDomain. -/
theorem c5_witness :
    validateDomain "example.com" "com" (some fun _ => "com")
      = .error .illegalDomain := by
  have h := c5_thm "example.com" "com" (fun _ => "com")
    (by decide) (by decide) (by decide) (by decide) (by decide) (by decide)
  rw [h]
  rfl

/-- C8: the punycode encoder reproduces the literal vectors
`Encode("bücher") = "xn--bcher-kva"`, `Encode("") = "xn--"` and
`Encode("ü") = "xn--tda"`, canonicalization is the identity on
`already-ascii.com`, and more generally toASCII is the identity on every
all-ASCII host. -/
theorem c8_thm :
    encode "bücher" [] = .ok "xn--bcher-kva"
    ∧ encode "" [] = .ok "xn--"
    ∧ encode "ü" [] = .ok "xn--tda"
    ∧ canonicalHost "already-ascii.com" = some (.ok "already-ascii.com")
    ∧ ∀ s : String, isASCII s = true → toASCII s = .ok s := by
  refine ⟨?_, rfl, rfl, rfl, fun s h => ?_⟩
  · show ((match encodeLoop 2 "bücher".data 5 128
        { buf := "xn--bcher-".data, bias := 72, d := 0, h := 5, rem := 1 } with
      | Except.error e => Except.error e
      | Except.ok buf => Except.ok (String.mk buf)) : Except JarError String)
      = .ok "xn--bcher-kva"
    rw [encodeLoop_step 1 "bücher".data 5 128
        { buf := "xn--bcher-".data, bias := 72, d := 0, h := 5, rem := 1 }
        252 744 253 5 { buf := "xn--bcher-kva".data, bias := 0, d := 4, h := 6, rem := 0 }
        (by decide) rfl rfl (by decide) rfl rfl rfl]
    rw [encodeLoop_done 1 "bücher".data 5 253 _ rfl]
  · unfold toASCII
    rw [if_pos h]

/-- C8, witness: the general all-ASCII identity applied at
`already-ascii.com`. -/
theorem c8_witness : toASCII "already-ascii.com" = .ok "already-ascii.com" :=
  c8_thm.2.2.2.2 "already-ascii.com" rfl

/-- C9: a failed SetCookie leaves the jar exactly as it was — every error
return happens before any mutation — and an invalid scheme yields
InvalidScheme with the untouched jar uniformly, before any host processing
or bucket lookup. -/
theorem c9_thm (j : Jar) (scheme host path : String) (c : Cookie) (now : Int) :
    (∀ e j', j.SetCookie scheme host path c now = some (some e, j') → j' = j)
    ∧ (scheme ≠ "http" → scheme ≠ "https" →
        j.SetCookie scheme host path c now = some (some .invalidScheme, j)) := by
  constructor
  · intro e j' h
    unfold Jar.SetCookie at h
    split at h
    · injection h with h'
      injection h' with h1 h2
      exact h2.symm
    · split at h
      · exact absurd h (by simp)
      · injection h with h'
        injection h' with h1 h2
        exact h2.symm
      · split at h
        · injection h with h'
          injection h' with h1 h2
          exact h2.symm
        · split at h <;>
          · injection h with h'
            injection h' with h1 h2
            simp at h1
  · intro hh1 hh2
    unfold Jar.SetCookie
    rw [if_pos ⟨hh1, hh2⟩]

/-- C9, witness: the invalid-scheme half at a concrete call (`ftp` on the
empty jar). -/
theorem c9_witness :
    emptyJarNone.SetCookie "ftp" "example.com" "/" cSession 0
      = some (some .invalidScheme, emptyJarNone) :=
  (c9_thm emptyJarNone "ftp" "example.com" "/" cSession 0).2
    (by decide) (by decide)

/-- C7, amended: for every entry whose Path is nonempty (true of every
entry the jar creates — newEntry normalizes Path to start with `/`),
shouldSend returns false when the entry is Secure and the scheme is not
https; and when the request path differs from the entry's Path it returns
false unless the entry's Path is a literal prefix of the request path and
either it ends in `/` or the request path's character right after the
prefix is `/`.  In particular Path `/foo` matches `/foo/bar` and `/foo`
but not `/foobar`. -/
theorem c7_thm (e : jarEntry) (scheme host path : String) (hp : e.Path ≠ "") :
    (e.Secure = true → scheme ≠ "https" →
      e.shouldSend scheme host path = some false)
    ∧ (path ≠ e.Path →
        ¬ (e.Path.data.isPrefixOf path.data = true ∧
           (e.Path.data.getLast? = some '/'
            ∨ path.data.get? e.Path.data.length = some '/')) →
        e.shouldSend scheme host path = some false)
    ∧ entryFoo.shouldSend "http" "h.com" "/foo/bar" = some true
    ∧ entryFoo.shouldSend "http" "h.com" "/foo" = some true
    ∧ entryFoo.shouldSend "http" "h.com" "/foobar" = some false := by
  refine ⟨?_, ?_, rfl, rfl, rfl⟩
  · intro hs hsch
    unfold jarEntry.shouldSend
    rw [if_pos ⟨hs, hsch⟩]
  · intro hne hA
    unfold jarEntry.shouldSend
    by_cases hc1 : e.Secure = true ∧ scheme ≠ "https"
    · rw [if_pos hc1]
    · rw [if_neg hc1]
      by_cases hc2 : e.Domain ≠ host ∧
          (e.HostOnly = true ∨ hasDotSuffix host e.Domain = false)
      · rw [if_pos hc2]
      · rw [if_neg hc2, if_pos hne]
        cases hpre : e.Path.data.isPrefixOf path.data with
        | false => rw [if_pos rfl]
        | true =>
          rw [if_neg (by simp)]
          push_neg at hA
          obtain ⟨hB, hC⟩ := hA hpre
          have hnil : e.Path.data ≠ [] := by
            intro hnil
            exact hp (string_eq_of_data_eq (by rw [hnil]))
          cases hl : e.Path.data.getLast? with
          | none => exact absurd (List.getLast?_eq_none_iff.mp hl) hnil
          | some lastc =>
            have hlast : lastc ≠ '/' := by
              intro hh
              subst hh
              exact hB hl
            dsimp only
            rw [if_pos hlast]
            have hlt : e.Path.data.length < path.data.length := by
              refine prefix_ne_length_lt hpre fun hh => hne ?_
              exact (string_eq_of_data_eq hh).symm
            cases hg : path.data.get? e.Path.data.length with
            | none =>
              have := List.get?_eq_none.mp hg
              omega
            | some ch =>
              have hch : ch ≠ '/' := by
                intro hh
                subst hh
                exact hC hg
              dsimp only
              rw [if_pos hch]

/-- C7, witness: the amended theorem applied to the /foo entry and request
path /foobar, whose prefix-but-no-boundary shape forces `false`. -/
theorem c7_witness :
    entryFoo.shouldSend "http" "h.com" "/foobar" = some false :=
  (c7_thm entryFoo "http" "h.com" "/foobar" (by decide)).2.1
    (by decide) (by decide)

end cookie
